import Mathlib

/-!
Verification of the per-connection request-multiplexing and application-bridging
layer of an HTTP/3 server (source: examples/http3_server.py).

The embedding models bytes as natural numbers (`List Nat` for byte strings),
the HTTP framing collaborator (`H0Connection`/`H3Connection`) as an effect
trace (`Effect`), and the WebSocket wire codec (wsproto, an opaque external
collaborator per the design) as a record of encoding functions (`WSCodec`).
Python dictionaries keyed by raw bytes are modelled as association lists with
unique keys.  Dates produced by `formatdate(time.time())` are an opaque
byte-string parameter.
-/

/-- ASCII byte string literal helper: for the pure-ASCII literals appearing in
the source this agrees with the UTF-8 encoding that Python applies. -/
def strBytes (s : String) : List Nat := s.data.map Char.toNat

/-- UTF-8 encoding of an arbitrary string, as Python `str.encode("utf8")`. -/
def utf8Bytes (s : String) : List Nat := s.toUTF8.toList.map (fun b => b.toNat)

/-- Decimal representation of a status code, as Python
`str(status).encode("ascii")`. -/
def statusBytes (n : Nat) : List Nat := (Nat.toDigits 10 n).map Char.toNat

/-- One observable interaction of a handler with the framing collaborator
(`send_headers` / `send_data`) or with the transport flush capability
(`self.transmit()`). -/
inductive Effect where
  | sendHeaders (streamId : Nat) (headers : List (List Nat × List Nat))
  | sendData (streamId : Nat) (payload : List Nat) (endStream : Bool)
  | transmit
deriving DecidableEq

/-- Whether an effect is a frame handed to the framing collaborator
(as opposed to a transport flush). -/
def isFrame : Effect → Bool
  | Effect.transmit => false
  | _ => true

/-- The frames of an effect trace, transmit calls filtered out. -/
def frames (tr : List Effect) : List Effect := tr.filter isFrame

/-- Whether an effect is a data frame carrying the end-of-stream flag. -/
def isEndStreamData : Effect → Bool
  | Effect.sendData _ _ es => es
  | _ => false

/-- An outbound ASGI message handed to `HttpRequestHandler.send`.  The source
receives a Python dict and dispatches on its `"type"` key; unused fields
default to the empty value for messages that do not carry them. -/
structure HttpMessage where
  type_ : String
  status : Nat
  headers : List (List Nat × List Nat)
  body : List Nat
deriving DecidableEq

/-- An inbound ASGI message enqueued by `HttpRequestHandler.http_event_received`. -/
structure HttpInMsg where
  type_ : String
  body : List Nat
  moreBody : Bool
deriving DecidableEq

/-- Mutable state of an `HttpRequestHandler`: its inbound mailbox
(`self.queue`). -/
structure HState where
  queue : List HttpInMsg
deriving DecidableEq

/-- Models `HttpRequestHandler.http_event_received` (lines 49-57): a
`DataReceived` event enqueues an `http.request` message whose `more_body`
flag is "stream not yet ended". -/
def HttpRequestHandler.http_event_received (st : HState) (data : List Nat)
    (streamEnded : Bool) : HState :=
  ⟨st.queue ++ [⟨"http.request", data, !streamEnded⟩]⟩

/-- Models `HttpRequestHandler.send` (lines 68-83).  `sid` is the stream
identifier, `date` the formatted-date byte string.  An `http.response.start`
message emits a header frame (status, `server`, `date`, then the
caller-supplied headers); an `http.response.body` message emits a data frame
without the end flag; every call ends with one transmit. -/
def HttpRequestHandler.send (sid : Nat) (date : List Nat) (st : HState)
    (msg : HttpMessage) : HState × List Effect :=
  if msg.type_ = "http.response.start" then
    (st, [Effect.sendHeaders sid
            ([(strBytes ":status", statusBytes msg.status),
              (strBytes "server", strBytes "aioquic"),
              (strBytes "date", date)] ++ msg.headers),
          Effect.transmit])
  else if msg.type_ = "http.response.body" then
    (st, [Effect.sendData sid msg.body false, Effect.transmit])
  else
    (st, [Effect.transmit])

/-- Sequentially applies `HttpRequestHandler.send` to the messages the
application callback sends, threading handler state and concatenating the
effect traces. -/
def HttpRequestHandler.processSends (sid : Nat) (date : List Nat) :
    HState → List HttpMessage → HState × List Effect
  | st, [] => (st, [])
  | st, m :: ms =>
    let r := HttpRequestHandler.send sid date st m
    let r2 := HttpRequestHandler.processSends sid date r.1 ms
    (r2.1, r.2 ++ r2.2)

/-- Models `HttpRequestHandler.run_asgi` (lines 59-63): the application
callback runs (producing the sends in `appMsgs`), then the handler sends an
empty end-of-stream data frame and transmits. -/
def HttpRequestHandler.run_asgiTrace (sid : Nat) (date : List Nat)
    (appMsgs : List HttpMessage) : List Effect :=
  (HttpRequestHandler.processSends sid date ⟨[]⟩ appMsgs).2
    ++ [Effect.sendData sid [] true, Effect.transmit]

/-- The `http.response.start` message with a status and caller headers. -/
def startMsg (status : Nat) (hdrs : List (List Nat × List Nat)) : HttpMessage :=
  ⟨"http.response.start", status, hdrs, []⟩

/-- The `http.response.body` message with a body payload. -/
def bodyMsg (b : List Nat) : HttpMessage :=
  ⟨"http.response.body", 0, [], b⟩

/-- The WebSocket wire codec (wsproto), an opaque external collaborator in
this design: a record of pure encoding functions.  `encodeClose code`,
`encodeText t` and `encodeBytes b` are the byte strings returned by
`wsproto.Connection.send` for a `CloseConnection`, `TextMessage` and binary
`Message` event, respectively. -/
structure WSCodec where
  encodeClose : Nat → List Nat
  encodeText : String → List Nat
  encodeBytes : List Nat → List Nat

/-- An outbound ASGI message handed to `WebSocketHandler.send`; the source
receives a Python dict and dispatches on its `"type"` key, reading the other
keys with `message.get` (absent keys modelled as `none`). -/
structure WSMessage where
  type_ : String
  code : Nat
  subprotocol : Option String
  text : Option String
  bytes : Option (List Nat)

/-- Mutable state of a `WebSocketHandler` relevant to sending: the `closed`
idempotency flag (line 95) and whether `self.websocket` holds a codec session
(`None` until the application accepts, line 101/136). -/
structure WSState where
  closed : Bool
  websocket : Option Unit
deriving DecidableEq

/-- Header list emitted on `websocket.accept` (lines 138-144): status 200,
`server`, `date`, and the optional negotiated sub-protocol header. -/
def acceptHeaders (date : List Nat) (sub : Option String) :
    List (List Nat × List Nat) :=
  [(strBytes ":status", strBytes "200"),
   (strBytes "server", strBytes "aioquic"),
   (strBytes "date", date)] ++
  (match sub with
   | some sp => [(strBytes "sec-websocket-protocol", utf8Bytes sp)]
   | none => [])

/-- Common tail of `WebSocketHandler.send` (lines 161-167): emit the data
frame when the codec produced bytes (Python truthiness of `data`), set the
`closed` flag when the stream was ended, then transmit.  `hdrEffs` carries the
header frame the accept branch emitted earlier in the call. -/
def wsFinish (sid : Nat) (st : WSState) (hdrEffs : List Effect)
    (data : List Nat) (endStream : Bool) : WSState × List Effect :=
  (⟨if endStream then true else st.closed, st.websocket⟩,
   hdrEffs ++ (if data = [] then [] else [Effect.sendData sid data endStream])
     ++ [Effect.transmit])

/-- Models `WebSocketHandler.send` (lines 130-167).  Returns `none` where the
Python raises (`self.websocket` is `None` and the branch dereferences it). -/
def WebSocketHandler.send (codec : WSCodec) (sid : Nat) (date : List Nat)
    (st : WSState) (msg : WSMessage) : Option (WSState × List Effect) :=
  if msg.type_ = "websocket.accept" then
    some (wsFinish sid ⟨st.closed, some ()⟩
      [Effect.sendHeaders sid (acceptHeaders date msg.subprotocol)] [] false)
  else if msg.type_ = "websocket.close" then
    match st.websocket with
    | none => none
    | some _ => some (wsFinish sid st [] (codec.encodeClose msg.code) true)
  else if msg.type_ = "websocket.send" then
    match msg.text with
    | some t =>
      match st.websocket with
      | none => none
      | some _ => some (wsFinish sid st [] (codec.encodeText t) false)
    | none =>
      match msg.bytes with
      | some b =>
        match st.websocket with
        | none => none
        | some _ => some (wsFinish sid st [] (codec.encodeBytes b) false)
      | none => some (wsFinish sid st [] [] false)
  else some (wsFinish sid st [] [] false)

/-- Sequentially applies `WebSocketHandler.send` to the messages the
application callback sends.  The `Bool` component records whether every send
succeeded; a raising send (modelled `none`) stops processing there, as the
exception propagates out of the application callback. -/
def WebSocketHandler.processSends (codec : WSCodec) (sid : Nat)
    (date : List Nat) : WSState → List WSMessage → WSState × List Effect × Bool
  | st, [] => (st, [], true)
  | st, m :: ms =>
    match WebSocketHandler.send codec sid date st m with
    | none => (st, [], false)
    | some r =>
      let r2 := WebSocketHandler.processSends codec sid date r.1 ms
      (r2.1, r.2 ++ r2.2.1, r2.2.2)

/-- The `websocket.close` message with a close code. -/
def closeMsg (code : Nat) : WSMessage := ⟨"websocket.close", code, none, none, none⟩

/-- The `websocket.accept` message with no sub-protocol. -/
def acceptMsg : WSMessage := ⟨"websocket.accept", 0, none, none, none⟩

/-- The `finally` block of `WebSocketHandler.run_asgi` (lines 123-125),
applied to the state, trace and success flag the application callback left
behind: when the session is not marked closed, the handler sends a synthetic
`websocket.close` with code 1000 (which itself raises when the codec session
was never constructed). -/
def wsFinally (codec : WSCodec) (sid : Nat) (date : List Nat)
    (r : WSState × List Effect × Bool) : WSState × List Effect × Bool :=
  if r.1.closed then r
  else
    match WebSocketHandler.send codec sid date r.1 (closeMsg 1000) with
    | none => (r.1, r.2.1, false)
    | some p => (p.1, r.2.1 ++ p.2, r.2.2)

/-- Models the send side of `WebSocketHandler.run_asgi` (lines 118-125): the
application callback runs from the freshly constructed handler state
(`closed = False`, `websocket = None`), then the `finally` block runs.
(The synthetic `websocket.connect` enqueue on the inbound mailbox is
modelled separately, in `WSStep`.) -/
def WebSocketHandler.run_asgi (codec : WSCodec) (sid : Nat) (date : List Nat)
    (appMsgs : List WSMessage) : WSState × List Effect × Bool :=
  wsFinally codec sid date
    (WebSocketHandler.processSends codec sid date ⟨false, none⟩ appMsgs)

/-- A concrete codec instance used to evaluate the model on closed inputs:
a close frame is the RFC 6455 header byte, length, and big-endian code;
text and binary frames get their opcode byte. -/
def demoCodec : WSCodec :=
  ⟨fun code => [136, 2, code / 256, code % 256],
   fun t => 129 :: utf8Bytes t,
   fun b => 130 :: b⟩

/-- A WebSocket-level event decoded by the ws-codec from inbound stream
bytes (`self.websocket.events()`), as consumed by
`WebSocketHandler.websocket_event_received` (lines 110-116).  `other` covers
codec events matching none of the three `isinstance` checks (pings, pongs). -/
inductive WSEvent where
  | text (s : String)
  | binary (b : List Nat)
  | close (code : Nat)
  | other
deriving DecidableEq

/-- An inbound message in a `WebSocketHandler`'s mailbox (`self.queue`). -/
inductive WSInMsg where
  | connect
  | receiveText (s : String)
  | receiveBytes (b : List Nat)
  | disconnect (code : Nat)
deriving DecidableEq

/-- Translation performed by `WebSocketHandler.websocket_event_received`
(lines 110-116): each decoded codec event yields at most one inbound
application message; events matching no branch yield nothing. -/
def wsEventToMsg : WSEvent → Option WSInMsg
  | WSEvent.text s => some (WSInMsg.receiveText s)
  | WSEvent.binary b => some (WSInMsg.receiveBytes b)
  | WSEvent.close code => some (WSInMsg.disconnect code)
  | WSEvent.other => none

/-- Observable state of one WebSocket stream for the mailbox-ordering
argument: the inbound mailbox contents, whether `self.websocket` holds a
codec session, and whether the bridge task (`run_asgi`) has started. -/
structure WSLive where
  queue : List WSInMsg
  websocket : Option Unit
  started : Bool
deriving DecidableEq

/-- State of a freshly constructed `WebSocketHandler` (lines 87-101): empty
mailbox, `self.websocket = None`, bridge task scheduled but not yet run. -/
def wsLiveInit : WSLive := ⟨[], none, false⟩

/-- One scheduler-visible step of the WebSocket stream lifecycle, under the
cooperative single-threaded model:
* `startTask`: the bridge task begins; its first synchronous action enqueues
  the synthetic `websocket.connect` message (line 119).  The task is
  scheduled exactly once.
* `appAccept`: the application callback (running strictly inside the bridge
  task) sends `websocket.accept`, constructing the codec session (line 136).
* `framingData`: a framing event reaches `WebSocketHandler.http_event_received`
  (lines 103-108); it enqueues the translations of the codec events.  When
  `self.websocket` is still `None` the method raises before enqueuing
  anything, so no such transition exists then. -/
inductive WSStep : WSLive → WSLive → Prop where
  | startTask (s : WSLive) : s.started = false →
      WSStep s ⟨s.queue ++ [WSInMsg.connect], s.websocket, true⟩
  | appAccept (s : WSLive) : s.started = true →
      WSStep s ⟨s.queue, some (), s.started⟩
  | framingData (s : WSLive) (evs : List WSEvent) : s.websocket = some () →
      WSStep s ⟨s.queue ++ evs.filterMap wsEventToMsg, s.websocket, s.started⟩

/-- States of one WebSocket stream reachable from handler construction under
any interleaving of framing-event arrival and bridge-task start. -/
inductive WSReachable : WSLive → Prop where
  | init : WSReachable wsLiveInit
  | step {s t : WSLive} : WSReachable s → WSStep s t → WSReachable t

/-- The two recognized framing protocol variants (line 256-259): the full
HTTP/3 framing (`h3-22`) and the minimal legacy one (`hq-22`). -/
inductive HttpVariant where
  | h0
  | h3
deriving DecidableEq

/-- Models the negotiation logic of `HttpServerProtocol.quic_event_received`
(lines 254-259) at the level of the selected variant: a recognized ALPN name
unconditionally replaces `self._http` with a fresh framing instance of that
variant; an unrecognized name leaves it unchanged. -/
def negotiateALPN (st : Option HttpVariant) (alpn : String) :
    Option HttpVariant :=
  if alpn = "h3-22" then some HttpVariant.h3
  else if alpn = "hq-22" then some HttpVariant.h0
  else st

/-- Accumulator of the header-parsing loop in
`HttpServerProtocol.http_event_received` (lines 181-196): `headers` collects
the application-visible header list, `method`/`rawPath` start as the empty
byte string (`""`/`b""`), `protocol` as `None`. -/
structure ParsedRequest where
  headers : List (List Nat × List Nat)
  method : List Nat
  rawPath : List Nat
  protocol : Option (List Nat)
deriving DecidableEq

/-- One iteration of the header loop (lines 186-196): `:authority`
synthesizes a `host` header, `:method`/`:path`/`:protocol` are captured, any
non-empty header not starting with a colon passes through, everything else
(other pseudo-headers, the empty name) is dropped.  (The source utf8-decodes
`method` and `protocol`; they are kept as bytes here, and compared against
ASCII literals where the source compares the decoded strings.) -/
def parseHeaderStep (acc : ParsedRequest) (hv : List Nat × List Nat) :
    ParsedRequest :=
  if hv.1 = strBytes ":authority" then
    ⟨acc.headers ++ [(strBytes "host", hv.2)], acc.method, acc.rawPath, acc.protocol⟩
  else if hv.1 = strBytes ":method" then
    ⟨acc.headers, hv.2, acc.rawPath, acc.protocol⟩
  else if hv.1 = strBytes ":path" then
    ⟨acc.headers, acc.method, hv.2, acc.protocol⟩
  else if hv.1 = strBytes ":protocol" then
    ⟨acc.headers, acc.method, acc.rawPath, some hv.2⟩
  else if hv.1 ≠ [] ∧ hv.1.head? ≠ some 58 then
    ⟨acc.headers ++ [hv], acc.method, acc.rawPath, acc.protocol⟩
  else acc

/-- The full header-parsing loop over a request's header list. -/
def parseRequestHeaders (hs : List (List Nat × List Nat)) : ParsedRequest :=
  hs.foldl parseHeaderStep ⟨[], [], [], none⟩

/-- Python `raw_path.split(b"?", maxsplit=1)` restricted to a one-byte
separator: the bytes strictly before the first occurrence of `sep` and the
bytes strictly after it (`(l, [])` when `sep` is absent). -/
def splitFirst (sep : Nat) : List Nat → List Nat × List Nat
  | [] => ([], [])
  | b :: rest =>
    if b = sep then ([], rest)
    else
      let r := splitFirst sep rest
      (b :: r.1, r.2)

/-- The path/query-string computation (lines 198-201): split once on the
first `?` (byte 63) when present, else the whole path with an empty query
string. -/
def pathAndQuery (raw : List Nat) : List Nat × List Nat :=
  if 63 ∈ raw then splitFirst 63 raw else (raw, [])

/-- Whether the request selects the WebSocket handler variant (line 205):
method `CONNECT` together with `:protocol` equal to `websocket`.  (The
source compares the utf8-decoded strings; both literals are ASCII.) -/
def isWebSocketRequest (pr : ParsedRequest) : Bool :=
  pr.method = strBytes "CONNECT" ∧ pr.protocol = some (strBytes "websocket")

/-- The `http_version` field of the scope (line 182): `"0.9"` when the
negotiated framing is the legacy variant, `"3"` otherwise. -/
def httpVersionOf : Option HttpVariant → String
  | some HttpVariant.h0 => "0.9"
  | _ => "3"

/-- The immutable per-stream request descriptor built by the dispatcher
(lines 212-223 and 231-241).  The source additionally utf8-decodes
`pathBytes` into the scope's `"path"` string; the byte-level value is kept
here.  The WebSocket variant's `subprotocols` list is not modelled (no claim
concerns it). -/
structure Scope where
  headers : List (List Nat × List Nat)
  httpVersion : String
  method : List Nat
  pathBytes : List Nat
  queryString : List Nat
  rawPath : List Nat
  rootPath : String
  scheme : String
  type_ : String
deriving DecidableEq

/-- A registered per-stream handler, tagged by variant. -/
inductive HandlerKind where
  | requestH (scope : Scope)
  | websocketH (scope : Scope)
deriving DecidableEq

/-- The scope a registered handler was constructed with. -/
def handlerScope : HandlerKind → Scope
  | HandlerKind.requestH sc => sc
  | HandlerKind.websocketH sc => sc

/-- State of one `HttpServerProtocol` connection: the negotiated framing
variant (`self._http`) and the stream table (`self._handlers`), an
insertion-ordered dict from stream identifier to handler. -/
structure DispState where
  http : Option HttpVariant
  handlers : List (Nat × HandlerKind)
deriving DecidableEq

/-- Lookup in the stream table (`event.stream_id in self._handlers` /
`self._handlers[event.stream_id]`). -/
def lookupHandler : List (Nat × HandlerKind) → Nat → Option HandlerKind
  | [], _ => none
  | p :: rest, sid => if p.1 = sid then some p.2 else lookupHandler rest sid

/-- A typed event from the framing collaborator, as dispatched on by
`HttpServerProtocol.http_event_received` (lines 179-252). -/
inductive H3Event where
  | requestReceived (streamId : Nat) (headers : List (List Nat × List Nat))
  | dataReceived (streamId : Nat) (data : List Nat) (streamEnded : Bool)
deriving DecidableEq

/-- An action the dispatcher performs besides mutating its own state:
scheduling a handler's bridge task (`asyncio.ensure_future(handler.run_asgi)`)
or forwarding a data event to a registered handler
(`handler.http_event_received(event)`). -/
inductive DispAction where
  | scheduleRunAsgi (streamId : Nat)
  | forwardData (streamId : Nat) (data : List Nat) (streamEnded : Bool)
deriving DecidableEq

/-- The scope built for a fresh stream from its request headers
(lines 181-241), shared shape of the HTTP and WebSocket variants. -/
def buildScope (st : DispState) (hs : List (List Nat × List Nat)) : Scope :=
  let pr := parseRequestHeaders hs
  let pq := pathAndQuery pr.rawPath
  let ws := isWebSocketRequest pr
  ⟨pr.headers, httpVersionOf st.http, pr.method, pq.1, pq.2, pr.rawPath, "",
   if ws then "wss" else "https", if ws then "websocket" else "http"⟩

/-- Models `HttpServerProtocol.http_event_received` (lines 179-252): a
request-initiated event on an unknown stream parses a scope, registers the
handler and schedules its bridge task; a request-initiated event on a known
stream matches neither branch and is ignored; a data event is forwarded to
the registered handler, or ignored when none exists. -/
def HttpServerProtocol.http_event_received (st : DispState) (ev : H3Event) :
    DispState × List DispAction :=
  match ev with
  | H3Event.requestReceived sid hs =>
    if (lookupHandler st.handlers sid).isSome then (st, [])
    else
      let sc := buildScope st hs
      let hk := if isWebSocketRequest (parseRequestHeaders hs) then
          HandlerKind.websocketH sc
        else
          HandlerKind.requestH sc
      (⟨st.http, st.handlers ++ [(sid, hk)]⟩, [DispAction.scheduleRunAsgi sid])
  | H3Event.dataReceived sid d ended =>
    if (lookupHandler st.handlers sid).isSome then
      (st, [DispAction.forwardData sid d ended])
    else (st, [])

/-- A connection-level operation affecting the dispatcher's state: a
protocol-negotiation event, a framing event, or the completion (normal or
exceptional) of a stream's bridge task. -/
inductive ConnOp where
  | protocolNegotiated (alpn : String)
  | h3Event (ev : H3Event)
  | bridgeTaskFinished (streamId : Nat)

/-- The dispatcher-state effect of one connection-level operation.  When a
bridge task finishes — whether `run_asgi` returned or raised (lines 59-63
and 118-125) — no code path in the module touches `self._handlers`, so the
dispatcher state is unchanged. -/
def connOpStep (st : DispState) : ConnOp → DispState
  | ConnOp.protocolNegotiated a => ⟨negotiateALPN st.http a, st.handlers⟩
  | ConnOp.h3Event ev => (HttpServerProtocol.http_event_received st ev).1
  | ConnOp.bridgeTaskFinished _ => st

/-- A session ticket (`aioquic.tls.SessionTicket`, a transport-collaborator
type): the cache only reads its `.ticket` attribute, the identifying label;
`payload` stands for the rest of the opaque resumption token. -/
structure SessionTicket where
  ticket : List Nat
  payload : Nat
deriving DecidableEq

/-- Python dict assignment `d[k] = v` on an association list with unique
keys: replace the first binding of `k` in place, else append. -/
def dictSet : List (List Nat × SessionTicket) → List Nat → SessionTicket →
    List (List Nat × SessionTicket)
  | [], k, v => [(k, v)]
  | p :: rest, k, v =>
    if p.1 = k then (k, v) :: rest else p :: dictSet rest k v

/-- Python dict lookup on an association list: the first binding wins. -/
def assocFind : List (List Nat × SessionTicket) → List Nat →
    Option SessionTicket
  | [], _ => none
  | p :: rest, k => if p.1 = k then some p.2 else assocFind rest k

/-- Removal of every binding of a label; on a unique-keyed list (which is
what dict operations build) this is Python's `del d[k]`. -/
def assocErase (m : List (List Nat × SessionTicket)) (k : List Nat) :
    List (List Nat × SessionTicket) :=
  m.filter (fun p => decide (p.1 ≠ k))

/-- The in-memory session ticket store (`SessionTicketStore`, lines 267-279):
a dict from ticket label to ticket. -/
structure SessionTicketStore where
  tickets : List (List Nat × SessionTicket)
deriving DecidableEq

/-- Models `SessionTicketStore.add` (lines 275-276): insert/overwrite under
the ticket's own label. -/
def SessionTicketStore.add (s : SessionTicketStore) (t : SessionTicket) :
    SessionTicketStore :=
  ⟨dictSet s.tickets t.ticket t⟩

/-- Models `SessionTicketStore.pop` (lines 278-279), Python
`self.tickets.pop(label, None)`: remove and return the ticket for a label if
present, else return `None` leaving the store unchanged. -/
def SessionTicketStore.pop (s : SessionTicketStore) (label : List Nat) :
    Option SessionTicket × SessionTicketStore :=
  match assocFind s.tickets label with
  | some t => (some t, ⟨assocErase s.tickets label⟩)
  | none => (none, s)

/-- An operation on the ticket store, as invoked by the transport
collaborator (`session_ticket_handler` → add, `session_ticket_fetcher` →
pop). -/
inductive StoreOp where
  | addOp (t : SessionTicket)
  | popOp (label : List Nat)

/-- Runs a sequence of store operations. -/
def runStoreOps : SessionTicketStore → List StoreOp → SessionTicketStore
  | s, [] => s
  | s, StoreOp.addOp t :: ops => runStoreOps (s.add t) ops
  | s, StoreOp.popOp l :: ops => runStoreOps (s.pop l).2 ops

/-- A concrete request header list used to evaluate the dispatcher. -/
def reqHeadersDemo : List (List Nat × List Nat) :=
  [(strBytes ":method", strBytes "GET"), (strBytes ":path", strBytes "/index.html")]

/-- C1: after the bridge task for stream 0 finishes, the dispatcher's stream
table still contains the entry for stream 0 — the module never removes
entries from `self._handlers`, so the claimed deregistration (in either the
success or the failure case) does not happen. -/
theorem handler_still_registered_after_task_finished :
    (lookupHandler
      (connOpStep
        (connOpStep
          (connOpStep ⟨none, []⟩ (ConnOp.protocolNegotiated "h3-22"))
          (ConnOp.h3Event (H3Event.requestReceived 0 reqHeadersDemo)))
        (ConnOp.bridgeTaskFinished 0)).handlers 0).isSome = true := by
  rfl

/-- C2 counterexample: on a connection that negotiated `h3-22` (selecting
the full framing variant), a second negotiation event carrying the different
recognized name `hq-22` replaces the framing variant with the legacy one —
the later call is not ignored, so "first negotiation wins" fails. -/
theorem second_negotiation_not_ignored :
    negotiateALPN (negotiateALPN none "h3-22") "hq-22" = some HttpVariant.h0
    ∧ negotiateALPN (negotiateALPN none "h3-22") "hq-22"
        ≠ negotiateALPN none "h3-22" := by
  constructor
  · rfl
  · intro h
    simp [negotiateALPN] at h

/-- C2 amended: a protocol-negotiation event carrying a recognized protocol
name unconditionally replaces the framing variant (last recognized
negotiation wins); only an event with an unrecognized name leaves the
governing variant unchanged. -/
theorem negotiation_last_recognized_wins (st : Option HttpVariant) :
    negotiateALPN st "h3-22" = some HttpVariant.h3
    ∧ negotiateALPN st "hq-22" = some HttpVariant.h0
    ∧ ∀ a : String, a ≠ "h3-22" → a ≠ "hq-22" → negotiateALPN st a = st := by
  refine ⟨rfl, rfl, ?_⟩
  intro a h1 h2
  simp [negotiateALPN, h1, h2]

/-- Witness for the amended C2 theorem at concrete inputs. -/
theorem negotiation_last_recognized_wins_witness :
    negotiateALPN (some HttpVariant.h3) "hq-22" = some HttpVariant.h0
    ∧ negotiateALPN (some HttpVariant.h3) "spdy/3" = some HttpVariant.h3 := by
  exact ⟨(negotiation_last_recognized_wins (some HttpVariant.h3)).2.1,
    (negotiation_last_recognized_wins (some HttpVariant.h3)).2.2 "spdy/3"
      (by decide) (by decide)⟩

/-- C3: a request-initiated event on a stream identifier already present in
the stream table is ignored: the dispatcher state (including the existing
table entry) is unchanged and no action — in particular no scheduling of a
bridge task — is produced. -/
theorem duplicate_request_ignored (st : DispState) (sid : Nat)
    (hs : List (List Nat × List Nat))
    (h : (lookupHandler st.handlers sid).isSome = true) :
    HttpServerProtocol.http_event_received st (H3Event.requestReceived sid hs)
      = (st, []) := by
  simp [HttpServerProtocol.http_event_received, h]

/-- Witness for C3: a duplicate request on stream 0 of a connection that
already registered stream 0 is ignored. -/
theorem duplicate_request_ignored_witness :
    HttpServerProtocol.http_event_received
      (connOpStep ⟨some HttpVariant.h3, []⟩
        (ConnOp.h3Event (H3Event.requestReceived 0 reqHeadersDemo)))
      (H3Event.requestReceived 0 reqHeadersDemo)
      = (connOpStep ⟨some HttpVariant.h3, []⟩
          (ConnOp.h3Event (H3Event.requestReceived 0 reqHeadersDemo)), []) := by
  exact duplicate_request_ignored _ 0 reqHeadersDemo (by rfl)

/-- C5: an application callback that sends `http.response.start`, then two
`http.response.body` messages, then returns, makes the handler emit exactly,
in order: one header frame whose list starts with the status, `server` and
`date` headers followed by the caller-supplied headers, two data frames
carrying the two bodies without the end-stream flag, and one final empty
data frame with the end-stream flag set. -/
theorem http_response_frame_sequence (sid : Nat) (date : List Nat)
    (status : Nat) (hdrs : List (List Nat × List Nat)) (b1 b2 : List Nat) :
    frames (HttpRequestHandler.run_asgiTrace sid date
        [startMsg status hdrs, bodyMsg b1, bodyMsg b2])
      = [Effect.sendHeaders sid
           ([(strBytes ":status", statusBytes status),
             (strBytes "server", strBytes "aioquic"),
             (strBytes "date", date)] ++ hdrs),
         Effect.sendData sid b1 false,
         Effect.sendData sid b2 false,
         Effect.sendData sid [] true] := by
  rfl

/-- C10: a message whose type is neither `http.response.start` nor
`http.response.body` makes `HttpRequestHandler.send` emit no frame and leave
the handler state unchanged, while still invoking the transmit capability
exactly once. -/
theorem http_send_unknown_type_only_transmits (sid : Nat) (date : List Nat)
    (st : HState) (msg : HttpMessage)
    (h1 : msg.type_ ≠ "http.response.start")
    (h2 : msg.type_ ≠ "http.response.body") :
    HttpRequestHandler.send sid date st msg = (st, [Effect.transmit]) := by
  simp [HttpRequestHandler.send, h1, h2]

/-- Witness for C10 at a concrete unrecognized message type. -/
theorem http_send_unknown_type_only_transmits_witness :
    HttpRequestHandler.send 0 [] ⟨[]⟩ ⟨"http.disconnect", 0, [], []⟩
      = (⟨[]⟩, [Effect.transmit]) := by
  exact http_send_unknown_type_only_transmits 0 [] ⟨[]⟩ _ (by decide) (by decide)

theorem isEndStreamData_sendHeaders (sid : Nat)
    (hs : List (List Nat × List Nat)) :
    isEndStreamData (Effect.sendHeaders sid hs) = false := rfl

theorem isEndStreamData_sendData (sid : Nat) (d : List Nat) (b : Bool) :
    isEndStreamData (Effect.sendData sid d b) = b := rfl

theorem isEndStreamData_transmit : isEndStreamData Effect.transmit = false := rfl

/-- Splitting on an occurring separator decomposes the list at its first
occurrence: the two parts flank that occurrence and the left part is free of
the separator. -/
theorem splitFirst_eq_of_mem (sep : Nat) (l : List Nat) (h : sep ∈ l) :
    (splitFirst sep l).1 ++ sep :: (splitFirst sep l).2 = l
    ∧ sep ∉ (splitFirst sep l).1 := by
  induction l with
  | nil => cases h
  | cons b rest ih =>
    by_cases hb : b = sep
    · subst hb
      simp [splitFirst]
    · have h' : sep ∈ rest := by
        rcases List.mem_cons.mp h with h0 | h0
        · exact absurd h0.symm hb
        · exact h0
      obtain ⟨ih1, ih2⟩ := ih h'
      constructor
      · simp only [splitFirst, if_neg hb, List.cons_append, List.cons.injEq]
        exact ⟨trivial, ih1⟩
      · simp only [splitFirst, if_neg hb, List.mem_cons, not_or]
        exact ⟨fun hc => hb hc.symm, ih2⟩

/-- Splitting on an absent separator keeps the whole list with an empty
remainder part. -/
theorem pathAndQuery_of_not_mem (raw : List Nat) (h : 63 ∉ raw) :
    pathAndQuery raw = (raw, []) := by
  simp [pathAndQuery, h]

/-- C4: for every header list, the scope built by the dispatcher splits the
`:path` value once on its first `?` (byte 63): when a `?` occurs, the path
is exactly the bytes before the first `?` and the query string exactly the
bytes after it, the splitting `?` belonging to neither; when no `?` occurs,
the path is the whole value and the query string is empty.  (The source
further utf8-decodes the path bytes into the scope's path string.) -/
theorem scope_path_query_split (st : DispState)
    (hs : List (List Nat × List Nat)) :
    (63 ∈ (parseRequestHeaders hs).rawPath →
      (buildScope st hs).pathBytes ++ 63 :: (buildScope st hs).queryString
          = (parseRequestHeaders hs).rawPath
        ∧ 63 ∉ (buildScope st hs).pathBytes)
    ∧ (63 ∉ (parseRequestHeaders hs).rawPath →
      (buildScope st hs).pathBytes = (parseRequestHeaders hs).rawPath
        ∧ (buildScope st hs).queryString = []) := by
  constructor
  · intro hmem
    have hb : (buildScope st hs).pathBytes
        = (splitFirst 63 (parseRequestHeaders hs).rawPath).1 := by
      simp [buildScope, pathAndQuery, hmem]
    have hq : (buildScope st hs).queryString
        = (splitFirst 63 (parseRequestHeaders hs).rawPath).2 := by
      simp [buildScope, pathAndQuery, hmem]
    rw [hb, hq]
    exact splitFirst_eq_of_mem 63 (parseRequestHeaders hs).rawPath hmem
  · intro hmem
    constructor
    · simp [buildScope, pathAndQuery, hmem]
    · simp [buildScope, pathAndQuery, hmem]

/-- A concrete header list whose `:path` value contains a `?`. -/
def demoPathHeaders : List (List Nat × List Nat) :=
  [(strBytes ":method", strBytes "GET"), (strBytes ":path", strBytes "/a?b=1")]

/-- A concrete header list whose `:path` value contains no `?`. -/
def demoPlainHeaders : List (List Nat × List Nat) :=
  [(strBytes ":method", strBytes "GET"), (strBytes ":path", strBytes "/plain")]

/-- Witness for C4 at concrete header lists with and without a `?`. -/
theorem scope_path_query_split_witness :
    ((buildScope ⟨none, []⟩ demoPathHeaders).pathBytes
        ++ 63 :: (buildScope ⟨none, []⟩ demoPathHeaders).queryString
        = (parseRequestHeaders demoPathHeaders).rawPath
      ∧ 63 ∉ (buildScope ⟨none, []⟩ demoPathHeaders).pathBytes)
    ∧ ((buildScope ⟨none, []⟩ demoPlainHeaders).pathBytes
        = (parseRequestHeaders demoPlainHeaders).rawPath
      ∧ (buildScope ⟨none, []⟩ demoPlainHeaders).queryString = []) := by
  exact ⟨(scope_path_query_split ⟨none, []⟩ demoPathHeaders).1 (by decide),
    (scope_path_query_split ⟨none, []⟩ demoPlainHeaders).2 (by decide)⟩

/-- A `wsFinish` with the end-stream flag off preserves the `closed` flag
and emits no end-stream data frame (beyond what `hdrEffs` contains, which
for header emission is nothing). -/
theorem wsFinish_false_facts (sid : Nat) (st : WSState) (he : List Effect)
    (data : List Nat) (hhe : he.filter isEndStreamData = []) :
    (wsFinish sid st he data false).1.closed = st.closed
    ∧ (wsFinish sid st he data false).2.filter isEndStreamData = [] := by
  constructor
  · rfl
  · by_cases hd : data = [] <;>
      simp [wsFinish, hd, List.filter_append, hhe, isEndStreamData]

/-- A successful `WebSocketHandler.send` of a message that is not
`websocket.close` leaves the `closed` flag unchanged and emits no
end-stream data frame. -/
theorem ws_send_not_close (codec : WSCodec) (sid : Nat) (date : List Nat)
    (st : WSState) (msg : WSMessage) (p : WSState × List Effect)
    (hty : msg.type_ ≠ "websocket.close")
    (h : WebSocketHandler.send codec sid date st msg = some p) :
    p.1.closed = st.closed ∧ p.2.filter isEndStreamData = [] := by
  unfold WebSocketHandler.send at h
  split_ifs at h with h1 h2
  · injection h with h
    subst h
    exact wsFinish_false_facts sid ⟨st.closed, some ()⟩ _ [] rfl
  · cases htext : msg.text with
    | some t =>
      rw [htext] at h
      cases hws : st.websocket with
      | none => rw [hws] at h; cases h
      | some u =>
        rw [hws] at h
        injection h with h
        subst h
        exact wsFinish_false_facts sid st [] _ rfl
    | none =>
      rw [htext] at h
      cases hbytes : msg.bytes with
      | some b =>
        rw [hbytes] at h
        cases hws : st.websocket with
        | none => rw [hws] at h; cases h
        | some u =>
          rw [hws] at h
          injection h with h
          subst h
          exact wsFinish_false_facts sid st [] _ rfl
      | none =>
        rw [hbytes] at h
        injection h with h
        subst h
        exact wsFinish_false_facts sid st [] [] rfl
  · injection h with h
    subst h
    exact wsFinish_false_facts sid st [] [] rfl

/-- Over a sequence of application sends containing no `websocket.close`,
the `closed` flag keeps its initial value and the emitted trace contains no
end-stream data frame, regardless of where (or whether) processing stops on
a raising send. -/
theorem processSends_no_close (codec : WSCodec) (sid : Nat) (date : List Nat)
    (msgs : List WSMessage) :
    ∀ st : WSState, (∀ m ∈ msgs, m.type_ ≠ "websocket.close") →
      (WebSocketHandler.processSends codec sid date st msgs).1.closed
          = st.closed
      ∧ (WebSocketHandler.processSends codec sid date st
          msgs).2.1.filter isEndStreamData = [] := by
  induction msgs with
  | nil => intro st _; exact ⟨rfl, rfl⟩
  | cons m ms ih =>
    intro st hnc
    have hm : m.type_ ≠ "websocket.close" := hnc m (List.mem_cons_self m ms)
    have hms : ∀ x ∈ ms, x.type_ ≠ "websocket.close" :=
      fun x hx => hnc x (List.mem_cons_of_mem m hx)
    unfold WebSocketHandler.processSends
    cases hsend : WebSocketHandler.send codec sid date st m with
    | none => exact ⟨rfl, rfl⟩
    | some r =>
      obtain ⟨h1, h2⟩ := ws_send_not_close codec sid date st m r hm hsend
      obtain ⟨ih1, ih2⟩ := ih r.1 hms
      constructor
      · rw [ih1, h1]
      · simp [List.filter_append, h2, ih2]

/-- The close branch of `WebSocketHandler.send` when the codec session
exists and the codec returns bytes: the frame carrying the encoded close is
emitted with the end-stream flag, the `closed` flag is set, and the call
transmits — with no guard on the previous value of `closed`. -/
theorem ws_send_close_eq (codec : WSCodec) (sid : Nat) (date : List Nat)
    (st : WSState) (code : Nat) (hws : st.websocket = some ())
    (hcb : codec.encodeClose code ≠ []) :
    WebSocketHandler.send codec sid date st (closeMsg code)
      = some (⟨true, st.websocket⟩,
          [Effect.sendData sid (codec.encodeClose code) true,
           Effect.transmit]) := by
  obtain ⟨cl, w⟩ := st
  change w = some () at hws
  subst hws
  change some (wsFinish sid ⟨cl, some ()⟩ [] (codec.encodeClose code) true) = _
  unfold wsFinish
  rw [if_neg hcb]
  rfl

/-- C6: when the application callback of an accepted WebSocket session
returns (all its sends succeeded) without ever having sent a
`websocket.close`, the handler appends — after the whole application trace —
exactly one close frame, carrying the codec encoding of code 1000 with the
end-stream flag, followed by a transmit; that frame is the only end-stream
frame of the session.  Conversely, a session the application already marked
closed gets no additional frame from the `finally` block. -/
theorem ws_autoclose_exactly_once (codec : WSCodec) (sid : Nat)
    (date : List Nat) (msgs : List WSMessage) (st : WSState)
    (tr : List Effect)
    (hp : WebSocketHandler.processSends codec sid date ⟨false, none⟩ msgs
        = (st, tr, true)) :
    ((∀ m ∈ msgs, m.type_ ≠ "websocket.close") → st.websocket = some () →
      codec.encodeClose 1000 ≠ [] →
      WebSocketHandler.run_asgi codec sid date msgs
          = (⟨true, st.websocket⟩,
             tr ++ [Effect.sendData sid (codec.encodeClose 1000) true,
               Effect.transmit], true)
        ∧ (tr ++ [Effect.sendData sid (codec.encodeClose 1000) true,
            Effect.transmit]).filter isEndStreamData
          = [Effect.sendData sid (codec.encodeClose 1000) true])
    ∧ (st.closed = true →
        WebSocketHandler.run_asgi codec sid date msgs = (st, tr, true)) := by
  constructor
  · intro hnc hws hcb
    have hcl : st.closed = false := by
      have h0 := (processSends_no_close codec sid date msgs ⟨false, none⟩ hnc).1
      rw [hp] at h0
      exact h0
    have hfil : tr.filter isEndStreamData = [] := by
      have h0 := (processSends_no_close codec sid date msgs ⟨false, none⟩ hnc).2
      rw [hp] at h0
      exact h0
    constructor
    · unfold WebSocketHandler.run_asgi
      rw [hp]
      unfold wsFinally
      rw [if_neg (by rw [hcl]; exact Bool.false_ne_true),
        ws_send_close_eq codec sid date st 1000 hws hcb]
    · simp [List.filter_append, hfil, isEndStreamData]
  · intro hcl
    unfold WebSocketHandler.run_asgi
    rw [hp]
    unfold wsFinally
    rw [if_pos hcl]

/-- Witness for C6: a session that only accepts gets the synthetic close
appended; a session that accepted and closed itself gets nothing more. -/
theorem ws_autoclose_exactly_once_witness :
    (WebSocketHandler.run_asgi demoCodec 0 [] [acceptMsg]
        = (⟨true, some ()⟩,
           [Effect.sendHeaders 0 (acceptHeaders [] none), Effect.transmit]
             ++ [Effect.sendData 0 (demoCodec.encodeClose 1000) true,
               Effect.transmit], true))
    ∧ (WebSocketHandler.run_asgi demoCodec 0 [] [acceptMsg, closeMsg 1000]
        = (⟨true, some ()⟩,
           [Effect.sendHeaders 0 (acceptHeaders [] none), Effect.transmit,
            Effect.sendData 0 (demoCodec.encodeClose 1000) true,
            Effect.transmit], true)) := by
  constructor
  · exact ((ws_autoclose_exactly_once demoCodec 0 [] [acceptMsg]
      ⟨false, some ()⟩ _ rfl).1 (by decide) rfl (by decide)).1
  · exact (ws_autoclose_exactly_once demoCodec 0 [] [acceptMsg, closeMsg 1000]
      ⟨true, some ()⟩ _ rfl).2 rfl

/-- C9 counterexample: with a codec returning nonempty close bytes, an
application that accepts and then sends `websocket.close` twice makes the
handler emit two end-stream close frames — the second close, sent after the
first, does cause a second close frame. -/
theorem ws_double_close_emits_twice :
    ((WebSocketHandler.processSends demoCodec 0 [] ⟨false, none⟩
        [acceptMsg, closeMsg 1000, closeMsg 1000]).2.1.filter
          isEndStreamData).length = 2 := by
  rfl

/-- C9 amended: sending `websocket.close` marks the session closed, but the
`closed` flag does not guard the send path: any `websocket.close` sent while
the codec session exists — including a second one, after the session is
already marked closed — re-invokes the codec and, whenever the codec returns
nonempty bytes, emits another end-stream close frame.  Suppression of a
double emission is delegated to the codec (whose real implementation raises
on a second close), not performed by the handler. -/
theorem ws_close_marks_closed_but_send_path_unguarded (codec : WSCodec)
    (sid : Nat) (date : List Nat) (st : WSState) (code : Nat)
    (hws : st.websocket = some ()) :
    (∀ p, WebSocketHandler.send codec sid date st (closeMsg code) = some p →
      p.1.closed = true)
    ∧ (codec.encodeClose code ≠ [] →
      WebSocketHandler.send codec sid date st (closeMsg code)
        = some (⟨true, st.websocket⟩,
            [Effect.sendData sid (codec.encodeClose code) true,
             Effect.transmit])) := by
  constructor
  · intro p hp
    obtain ⟨cl, w⟩ := st
    change w = some () at hws
    subst hws
    change some (wsFinish sid ⟨cl, some ()⟩ [] (codec.encodeClose code) true)
        = some p at hp
    injection hp with hp
    subst hp
    rfl
  · intro hcb
    exact ws_send_close_eq codec sid date st code hws hcb

/-- Witness for the amended C9 theorem: on an already-closed session, a
further `websocket.close` still emits an end-stream close frame. -/
theorem ws_close_marks_closed_but_send_path_unguarded_witness :
    WebSocketHandler.send demoCodec 0 [] ⟨true, some ()⟩ (closeMsg 1000)
      = some (⟨true, some ()⟩,
          [Effect.sendData 0 (demoCodec.encodeClose 1000) true,
           Effect.transmit]) := by
  exact (ws_close_marks_closed_but_send_path_unguarded demoCodec 0 []
    ⟨true, some ()⟩ 1000 rfl).2 (by decide)

theorem assocFind_dictSet_self (m : List (List Nat × SessionTicket))
    (k : List Nat) (v : SessionTicket) :
    assocFind (dictSet m k v) k = some v := by
  induction m with
  | nil => simp [dictSet, assocFind]
  | cons p rest ih =>
    by_cases hp : p.1 = k
    · simp [dictSet, hp, assocFind]
    · simp [dictSet, hp, assocFind, ih]

theorem assocFind_dictSet_ne (m : List (List Nat × SessionTicket))
    (k k' : List Nat) (v : SessionTicket) (h : k ≠ k') :
    assocFind (dictSet m k v) k' = assocFind m k' := by
  induction m with
  | nil => simp [dictSet, assocFind, h]
  | cons p rest ih =>
    by_cases hp : p.1 = k
    · simp [dictSet, hp, assocFind, h]
    · simp [dictSet, hp, assocFind, ih]

theorem assocFind_assocErase_self (m : List (List Nat × SessionTicket))
    (k : List Nat) : assocFind (assocErase m k) k = none := by
  induction m with
  | nil => rfl
  | cons p rest ih =>
    by_cases hp : p.1 = k
    · simpa [assocErase, hp] using ih
    · simpa [assocErase, assocFind, hp] using ih

theorem assocFind_filter_none (m : List (List Nat × SessionTicket))
    (q : List Nat × SessionTicket → Bool) (k : List Nat)
    (h : assocFind m k = none) : assocFind (m.filter q) k = none := by
  induction m with
  | nil => rfl
  | cons p rest ih =>
    by_cases hp : p.1 = k
    · simp [assocFind, hp] at h
    · have h' : assocFind rest k = none := by simpa [assocFind, hp] using h
      by_cases hq : q p
      · simpa [List.filter_cons, hq, assocFind, hp] using ih h'
      · simpa [List.filter_cons, hq] using ih h'

/-- A label absent from the store stays absent over any sequence of
operations that never adds a ticket carrying that label. -/
theorem absent_after_ops (k : List Nat) (ops : List StoreOp) :
    ∀ s : SessionTicketStore, assocFind s.tickets k = none →
      (∀ u : SessionTicket, StoreOp.addOp u ∈ ops → u.ticket ≠ k) →
      assocFind (runStoreOps s ops).tickets k = none := by
  induction ops with
  | nil => intro s h _; exact h
  | cons op rest ih =>
    intro s h hops
    have hrest : ∀ u : SessionTicket, StoreOp.addOp u ∈ rest → u.ticket ≠ k :=
      fun u hu => hops u (List.mem_cons_of_mem op hu)
    cases op with
    | addOp t =>
      have ht : t.ticket ≠ k := hops t (List.mem_cons_self _ _)
      have h' : assocFind (s.add t).tickets k = none := by
        unfold SessionTicketStore.add
        rw [assocFind_dictSet_ne s.tickets t.ticket k t ht]
        exact h
      exact ih (s.add t) h' hrest
    | popOp l =>
      have h' : assocFind ((s.pop l).2).tickets k = none := by
        unfold SessionTicketStore.pop
        cases hf : assocFind s.tickets l with
        | none => exact h
        | some t => exact assocFind_filter_none s.tickets _ k h
      exact ih (s.pop l).2 h' hrest

/-- A `pop` of an absent label returns the absence value and leaves the
store unchanged. -/
theorem pop_absent (s : SessionTicketStore) (k : List Nat)
    (h : assocFind s.tickets k = none) : s.pop k = (none, s) := by
  unfold SessionTicketStore.pop
  rw [h]

/-- C7: after `add(ticket)`, the first `pop` with the ticket's label removes
the entry and returns the ticket; and after any further operations that add
no ticket with that label, a `pop` with the same label returns the absence
value — a label found once can never be found again. -/
theorem ticket_consume_once (s : SessionTicketStore) (t : SessionTicket)
    (ops : List StoreOp)
    (hops : ∀ u : SessionTicket, StoreOp.addOp u ∈ ops →
      u.ticket ≠ t.ticket) :
    ((s.add t).pop t.ticket).1 = some t
    ∧ assocFind (((s.add t).pop t.ticket).2).tickets t.ticket = none
    ∧ ((runStoreOps ((s.add t).pop t.ticket).2 ops).pop t.ticket).1
        = none := by
  have hfind : assocFind (s.add t).tickets t.ticket = some t :=
    assocFind_dictSet_self s.tickets t.ticket t
  have hpop : (s.add t).pop t.ticket
      = (some t, ⟨assocErase (s.add t).tickets t.ticket⟩) := by
    unfold SessionTicketStore.pop
    rw [hfind]
  have habsent :
      assocFind (((s.add t).pop t.ticket).2).tickets t.ticket = none := by
    rw [hpop]
    exact assocFind_assocErase_self (s.add t).tickets t.ticket
  refine ⟨by rw [hpop], habsent, ?_⟩
  have hlater := absent_after_ops t.ticket ops ((s.add t).pop t.ticket).2
    habsent hops
  rw [pop_absent _ _ hlater]

/-- Witness for C7 at a concrete store, ticket, and operation sequence
(a pop of another label and an add of a different ticket in between). -/
theorem ticket_consume_once_witness :
    ((SessionTicketStore.add ⟨[]⟩ ⟨[1, 2], 7⟩).pop [1, 2]).1 = some ⟨[1, 2], 7⟩
    ∧ assocFind
        (((SessionTicketStore.add ⟨[]⟩ ⟨[1, 2], 7⟩).pop [1, 2]).2).tickets
        [1, 2] = none
    ∧ ((runStoreOps ((SessionTicketStore.add ⟨[]⟩ ⟨[1, 2], 7⟩).pop [1, 2]).2
        [StoreOp.popOp [9], StoreOp.addOp ⟨[3], 1⟩]).pop [1, 2]).1
        = none := by
  refine ticket_consume_once ⟨[]⟩ ⟨[1, 2], 7⟩ _ ?_
  intro u hu
  rcases List.mem_cons.mp hu with h0 | h0
  · cases h0
  · rcases List.mem_cons.mp h0 with h1 | h1
    · cases h1
      decide
    · cases h1

/-- Invariant of the WebSocket stream lifecycle: before the bridge task
starts the mailbox is empty and no codec session exists; once it has
started, the mailbox begins with the synthetic connect message. -/
theorem wsReachable_invariant (s : WSLive) (h : WSReachable s) :
    (s.started = false → s.queue = [] ∧ s.websocket = none)
    ∧ (s.started = true →
        ∃ rest, s.queue = WSInMsg.connect :: rest) := by
  induction h with
  | init =>
    constructor
    · intro _; exact ⟨rfl, rfl⟩
    · intro h0; cases h0
  | step _ hstep ih =>
    cases hstep with
    | startTask hst =>
      obtain ⟨hq, _⟩ := ih.1 hst
      constructor
      · intro h0; cases h0
      · intro _
        exact ⟨[], by rw [hq]; rfl⟩
    | appAccept hst =>
      constructor
      · intro h0
        rw [hst] at h0
        cases h0
      · intro _
        exact ih.2 hst
    | framingData evs hws =>
      rename_i u a
      have hst : u.started = true := by
        cases hs0 : u.started with
        | false =>
          obtain ⟨_, hw⟩ := ih.1 hs0
          rw [hw] at hws
          cases hws
        | true => rfl
      obtain ⟨rest, hq⟩ := ih.2 hst
      constructor
      · intro h0
        rw [hst] at h0
        cases h0
      · intro _
        refine ⟨rest ++ evs.filterMap wsEventToMsg, ?_⟩
        rw [hq]
        rfl

/-- C8: in every state of a WebSocket stream reachable under any
interleaving of framing-event arrival and bridge-task start, a non-empty
inbound mailbox has the synthetic `websocket.connect` message at its head —
so the first message the application dequeues is always the connect
message, which was enqueued before any data-derived message. -/
theorem connect_message_first (s : WSLive) (h : WSReachable s)
    (hne : s.queue ≠ []) : s.queue.head? = some WSInMsg.connect := by
  obtain ⟨h1, h2⟩ := wsReachable_invariant s h
  cases hs : s.started with
  | false =>
    obtain ⟨hq, _⟩ := h1 hs
    exact absurd hq hne
  | true =>
    obtain ⟨rest, hq⟩ := h2 hs
    rw [hq]
    rfl

/-- Witness for C8: the state reached by starting the bridge task, accepting,
and then receiving a framing event decoding to one text frame has the
connect message first in the mailbox. -/
theorem connect_message_first_witness :
    (⟨[WSInMsg.connect, WSInMsg.receiveText "hi"], some (), true⟩
        : WSLive).queue.head? = some WSInMsg.connect := by
  exact connect_message_first _
    (WSReachable.step
      (WSReachable.step
        (WSReachable.step WSReachable.init (WSStep.startTask wsLiveInit rfl))
        (WSStep.appAccept ⟨[WSInMsg.connect], none, true⟩ rfl))
      (WSStep.framingData ⟨[WSInMsg.connect], some (), true⟩
        [WSEvent.text "hi"] rfl))
    (by simp)
